import Mathlib

/-!
Verification of the Expense Tracker server core (remote_mcp_server.py) against its
natural-language specification.

The embedding models the SQLite-backed state as explicit Lean structures:
dates are modelled structurally as year/month/day triples; lexicographic
comparison on those triples coincides with the lexicographic TEXT comparison
SQLite performs on canonical ISO `YYYY-MM-DD` strings. Real-valued amounts are
modelled as rationals. Each tool returns a pair of the new database state and a
structured result mirroring the returned dict (error-message strings are
reproduced except for punctuation-only simplifications; the human-readable
`message` inside a budget alert dict is not modelled).
-/

/-- A calendar date, the structural form of a `YYYY-MM-DD` string. -/
structure Date where
  year : Nat
  month : Nat
  day : Nat
deriving DecidableEq

/-- Days in a month per the proleptic Gregorian calendar, as enforced by
Python `datetime.strptime` when it validates a date. -/
def daysInMonth (year month : Nat) : Nat :=
  if month = 2 then
    (if year % 4 = 0 ∧ (year % 100 ≠ 0 ∨ year % 400 = 0) then 29 else 28)
  else if month = 4 ∨ month = 6 ∨ month = 9 ∨ month = 11 then 30 else 31

/-- Model of `validate_date`: `datetime.strptime(date_str, "%Y-%m-%d")` succeeds
exactly when the fields form a real calendar date with year in 1..9999. -/
def validate_date (dt : Date) : Bool :=
  decide (1 ≤ dt.year) && decide (dt.year ≤ 9999) &&
  decide (1 ≤ dt.month) && decide (dt.month ≤ 12) &&
  decide (1 ≤ dt.day) && decide (dt.day ≤ daysInMonth dt.year dt.month)

/-- Lexicographic order on dates; identical to SQLite TEXT `<=` on canonical
ISO date strings. -/
def dateLeb (a b : Date) : Bool :=
  if a.year < b.year then true
  else if b.year < a.year then false
  else if a.month < b.month then true
  else if b.month < a.month then false
  else if a.day ≤ b.day then true else false

/-- Month-boundary computation embedded from `add_expense` (the
`year_month.endswith(...)` chain at lines 154-163): for the canonical
`YYYY-MM` key the final two characters are the zero-padded month. -/
def lastDayAdd (year month : Nat) : Nat :=
  if month = 2 then
    (if year % 4 = 0 ∧ (year % 100 ≠ 0 ∨ year % 400 = 0) then 29 else 28)
  else if month = 4 ∨ month = 6 ∨ month = 9 ∨ month = 11 then 30 else 31

/-- Month-boundary computation embedded from `add_recurring_expense`
(lines 856-864), textually identical to the `add_expense` copy. -/
def lastDayRecurring (year month : Nat) : Nat :=
  if month = 2 then
    (if year % 4 = 0 ∧ (year % 100 ≠ 0 ∨ year % 400 = 0) then 29 else 28)
  else if month = 4 ∨ month = 6 ∨ month = 9 ∨ month = 11 then 30 else 31

/-- Month-boundary computation embedded from `get_budget_status`
(lines 683-691), textually identical to the other two copies. -/
def lastDayStatus (year month : Nat) : Nat :=
  if month = 2 then
    (if year % 4 = 0 ∧ (year % 100 ≠ 0 ∨ year % 400 = 0) then 29 else 28)
  else if month = 4 ∨ month = 6 ∨ month = 9 ∨ month = 11 then 30 else 31

/-- Model of `validate_amount`: `float(amount) > 0`. -/
def validate_amount (amount : ℚ) : Bool :=
  decide (0 < amount)

/-- Model of `validate_category`: returns `none` when valid, `some errorMessage`
otherwise, mirroring the `{valid, error}` dict. The taxonomy mapping loaded
from `categories.json` is passed explicitly as an association list. -/
def validate_category (cats : List (String × List String))
    (category : String) (subcategory : String) : Option String :=
  match List.lookup category cats with
  | none =>
      some (("Invalid category ") ++ category ++ (". Available: ") ++
        String.intercalate (", ") (cats.map Prod.fst))
  | some subs =>
      if subcategory ≠ "" ∧ ¬ subcategory ∈ subs then
        some (("Invalid subcategory ") ++ subcategory ++ (" for category ") ++
          category ++ (". Available: ") ++ String.intercalate (", ") subs)
      else none

/-- Verdict of one budget evaluation. -/
inductive Verdict
  | OK
  | WARNING
  | CRITICAL
deriving DecidableEq

/-- Model of `percentage = (spent / limit) * 100 if limit > 0 else 0`. -/
def budgetPercentage (spent limit : ℚ) : ℚ :=
  if 0 < limit then spent / limit * 100 else 0

/-- Model of the `if percentage >= 100 / elif percentage >= threshold * 100`
alert chain shared by `add_expense`, `add_recurring_expense` and
`get_budget_status`. -/
def budgetVerdict (spent limit threshold : ℚ) : Verdict :=
  if 100 ≤ budgetPercentage spent limit then .CRITICAL
  else if threshold * 100 ≤ budgetPercentage spent limit then .WARNING
  else .OK

/-- C1: with limit > 0 the percentage is spent/limit×100 and the verdict
is CRITICAL iff percentage ≥ 100, WARNING iff threshold×100 ≤ percentage < 100,
and OK iff percentage is below both bounds (so the threshold boundary is
inclusive and exactly one verdict arises); with limit = 0 the percentage is
defined as 0 rather than a division fault. -/
theorem budget_verdict_rule (spent limit threshold : ℚ) :
    (0 < limit →
      budgetPercentage spent limit = spent / limit * 100 ∧
      (budgetVerdict spent limit threshold = .CRITICAL ↔
        100 ≤ spent / limit * 100) ∧
      (budgetVerdict spent limit threshold = .WARNING ↔
        threshold * 100 ≤ spent / limit * 100 ∧ spent / limit * 100 < 100) ∧
      (budgetVerdict spent limit threshold = .OK ↔
        spent / limit * 100 < threshold * 100 ∧ spent / limit * 100 < 100)) ∧
    (limit = 0 → budgetPercentage spent limit = 0) := by
  constructor
  · intro hl
    have hp : budgetPercentage spent limit = spent / limit * 100 := by
      simp [budgetPercentage, hl]
    refine ⟨hp, ?_, ?_, ?_⟩ <;>
      · unfold budgetVerdict
        rw [hp]
        split_ifs with h1 h2 <;> simp_all
  · intro hl
    simp [budgetPercentage, hl]

/-- Witness for C1 at the boundary examples of the spec: limit = 100,
threshold = 0.8, spent = 80.00 gives WARNING, 79.99 gives OK, 99.99 gives
WARNING, 100.00 gives CRITICAL. -/
theorem budget_verdict_rule_witness :
    budgetVerdict 80 100 (4/5) = .WARNING ∧
    budgetVerdict (7999/100) 100 (4/5) = .OK ∧
    budgetVerdict (9999/100) 100 (4/5) = .WARNING ∧
    budgetVerdict 100 100 (4/5) = .CRITICAL := by
  have h1 := (budget_verdict_rule 80 100 (4/5)).1 (by norm_num)
  have h2 := (budget_verdict_rule (7999/100) 100 (4/5)).1 (by norm_num)
  have h3 := (budget_verdict_rule (9999/100) 100 (4/5)).1 (by norm_num)
  have h4 := (budget_verdict_rule 100 100 (4/5)).1 (by norm_num)
  exact ⟨h1.2.2.1.mpr (by norm_num), h2.2.2.2.mpr (by norm_num),
    h3.2.2.1.mpr (by norm_num), h4.2.1.mpr (by norm_num)⟩

/-- C2: the last calendar day of a YYYY-MM window is 29 for February of a
leap year (divisible by 4 and (not divisible by 100 or divisible by 400)),
28 for other Februaries, 30 for April, June, September and November, 31
otherwise; the concrete examples hold; and the same rule is applied
identically at the add-expense, recurring-expense and budget-status sites. -/
theorem month_last_day_rule :
    (∀ y, y % 4 = 0 ∧ (y % 100 ≠ 0 ∨ y % 400 = 0) → lastDayAdd y 2 = 29) ∧
    (∀ y, ¬ (y % 4 = 0 ∧ (y % 100 ≠ 0 ∨ y % 400 = 0)) → lastDayAdd y 2 = 28) ∧
    (∀ y m, m = 4 ∨ m = 6 ∨ m = 9 ∨ m = 11 → lastDayAdd y m = 30) ∧
    (∀ y m, m ≠ 2 → ¬ (m = 4 ∨ m = 6 ∨ m = 9 ∨ m = 11) → lastDayAdd y m = 31) ∧
    lastDayAdd 2024 2 = 29 ∧ lastDayAdd 2023 2 = 28 ∧
    lastDayAdd 2024 4 = 30 ∧ lastDayAdd 2024 1 = 31 ∧
    (∀ y m, lastDayAdd y m = lastDayRecurring y m ∧
      lastDayAdd y m = lastDayStatus y m) := by
  refine ⟨?_, ?_, ?_, ?_, by decide, by decide, by decide, by decide, ?_⟩
  · intro y hy
    simp [lastDayAdd, hy]
  · intro y hy
    simp only [lastDayAdd, if_pos rfl, if_neg hy, if_true]
  · intro y m hm
    have h2 : m ≠ 2 := by rcases hm with h | h | h | h <;> omega
    simp [lastDayAdd, h2, hm]
  · intro y m h2 hm
    simp [lastDayAdd, h2, hm]
  · intro y m
    exact ⟨rfl, rfl⟩

/-- Witness for C2 applied at concrete years and months. -/
theorem month_last_day_rule_witness :
    lastDayAdd 2024 2 = 29 ∧ lastDayAdd 1900 2 = 28 ∧ lastDayAdd 2000 2 = 29 ∧
    lastDayAdd 2026 9 = 30 ∧ lastDayAdd 2026 12 = 31 := by
  refine ⟨month_last_day_rule.1 2024 (by omega), ?_, ?_, ?_, ?_⟩
  · exact month_last_day_rule.2.1 1900 (by omega)
  · exact month_last_day_rule.1 2000 (by omega)
  · exact month_last_day_rule.2.2.1 2026 9 (by omega)
  · exact month_last_day_rule.2.2.2.1 2026 12 (by omega) (by omega)

/-- An expense row of the `expenses` table (the immutable `created_at`
timestamp carries no logic and is not modelled). -/
structure Expense where
  id : Nat
  date : Date
  amount : ℚ
  category : String
  subcategory : String
  note : String
deriving DecidableEq

/-- A budget row of the `budgets` table (at most one per category). -/
structure Budget where
  category : String
  monthly_limit : ℚ
  alert_threshold : ℚ
deriving DecidableEq

/-- A row of the `recurring_expenses` table. -/
structure Recurring where
  id : Nat
  amount : ℚ
  category : String
  subcategory : String
  note : String
  frequency : String
  start_date : Date
  end_date : Option Date
  last_applied : Date
  active : Bool
deriving DecidableEq

/-- The whole SQLite database state. Row lists are kept in insertion order;
`nextExpenseId` and `nextRecurringId` model the AUTOINCREMENT counters. -/
structure DB where
  expenses : List Expense
  nextExpenseId : Nat
  budgets : List Budget
  recurring : List Recurring
  nextRecurringId : Nat
deriving DecidableEq

/-- Round-half-to-even of a rational to an integer, the tie rule Python's
`round` applies. -/
def roundHalfEven (x : ℚ) : ℤ :=
  if x - ⌊x⌋ < 1/2 then ⌊x⌋
  else if 1/2 < x - ⌊x⌋ then ⌊x⌋ + 1
  else if ⌊x⌋ % 2 = 0 then ⌊x⌋ else ⌊x⌋ + 1

/-- Model of Python `round(x, 2)`. -/
def round2 (x : ℚ) : ℚ :=
  (roundHalfEven (x * 100) : ℚ) / 100

/-- Model of Python `round(x, 1)`. -/
def round1 (x : ℚ) : ℚ :=
  (roundHalfEven (x * 10) : ℚ) / 10

/-- The budget-alert dict attached to an add response (the human-readable
`message` string is not modelled; `alert_level` is the verdict). -/
structure BudgetAlert where
  alert_level : Verdict
  category : String
  spent : ℚ
  limit : ℚ
  remaining : ℚ
  percentage : ℚ
deriving DecidableEq

/-- Lookup of `SELECT monthly_limit, alert_threshold FROM budgets WHERE
category = ?` (the UNIQUE constraint makes the first match the only one). -/
def lookupBudget (db : DB) (category : String) : Option Budget :=
  db.budgets.find? (fun b => b.category == category)

/-- Spend aggregate `SELECT COALESCE(SUM(amount), 0) FROM expenses WHERE
category = ? AND date BETWEEN ? AND ?` over the month window whose last day
is produced by `lastDay`. -/
def monthSpendWith (lastDay : Nat → Nat → Nat) (expenses : List Expense)
    (category : String) (year month : Nat) : ℚ :=
  ((expenses.filter (fun x =>
      x.category == category &&
      dateLeb ⟨year, month, 1⟩ x.date &&
      dateLeb x.date ⟨year, month, lastDay year month⟩)).map
    (fun x => x.amount)).sum

/-- The post-insert budget check shared (by textual duplication) between
`add_expense` and `add_recurring_expense`: look up the month window, compute
the in-month spend, and build an alert per the verdict chain. -/
def budgetCheckWith (lastDay : Nat → Nat → Nat) (db : DB) (category : String)
    (year month : Nat) : Option BudgetAlert :=
  match lookupBudget db category with
  | none => none
  | some b =>
    let spent := monthSpendWith lastDay db.expenses category year month
    let percentage := budgetPercentage spent b.monthly_limit
    let remaining := b.monthly_limit - spent
    match budgetVerdict spent b.monthly_limit b.alert_threshold with
    | .CRITICAL => some ⟨.CRITICAL, category, round2 spent, round2 b.monthly_limit,
        round2 remaining, round1 percentage⟩
    | .WARNING => some ⟨.WARNING, category, round2 spent, round2 b.monthly_limit,
        round2 remaining, round1 percentage⟩
    | .OK => none

/-- Result dict of `add_expense`. -/
structure AddResult where
  status : String
  message : String
  id : Option Nat
  budget_alert : Option BudgetAlert
deriving DecidableEq

/-- Model of the `add_expense` tool: validate, insert, then run the inline
budget check on the post-insert state for the expense month. -/
def add_expense (cats : List (String × List String)) (db : DB) (date : Date)
    (amount : ℚ) (category subcategory note : String) : DB × AddResult :=
  if ¬ validate_date date then
    (db, ⟨"error", "Invalid date format. Use YYYY-MM-DD", none, none⟩)
  else if ¬ validate_amount amount then
    (db, ⟨"error", "Amount must be a positive number", none, none⟩)
  else
    match validate_category cats category subcategory with
    | some e => (db, ⟨"error", e, none, none⟩)
    | none =>
      let exp : Expense := ⟨db.nextExpenseId, date, amount, category, subcategory, note⟩
      let db' : DB := { db with expenses := db.expenses ++ [exp],
                                nextExpenseId := db.nextExpenseId + 1 }
      let alert := budgetCheckWith lastDayAdd db' category date.year date.month
      (db', ⟨"ok", "Expense added successfully", some db.nextExpenseId, alert⟩)

/-- Output-order comparison embedded from `ORDER BY date DESC, id DESC`:
`a` may precede `b` iff `a` has the later date, or an equal date and the
larger-or-equal id. -/
def expLeb (a b : Expense) : Bool :=
  if a.date = b.date then (if b.id ≤ a.id then true else false)
  else dateLeb b.date a.date

/-- Result dict of `list_expenses`. -/
structure ListResult where
  status : String
  count : Nat
  expenses : List Expense
deriving DecidableEq

/-- Row filter of the `list_expenses` WHERE clause; per Python truthiness an
empty-string category filter is dropped. -/
def listFilter (start_date end_date : Date) (category : Option String)
    (x : Expense) : Bool :=
  dateLeb start_date x.date && dateLeb x.date end_date &&
  (match category with
   | none => true
   | some c => if c = "" then true else x.category == c)

/-- Model of the `list_expenses` tool. -/
def list_expenses (db : DB) (start_date end_date : Date)
    (category : Option String) : ListResult :=
  if validate_date start_date && validate_date end_date then
    let l := List.insertionSort (fun a b => expLeb a b = true)
      (db.expenses.filter (listFilter start_date end_date category))
    ⟨"ok", l.length, l⟩
  else ⟨"error", 0, []⟩

/-- Result dict of `update_expense` and of `deactivate_recurring_expense`.
The update response dict never contains a `budget_alert` key; the field is
kept (always `none`) so that claims about inline alerts are expressible. -/
structure UpdateResult where
  status : String
  message : String
  budget_alert : Option BudgetAlert
deriving DecidableEq

/-- The per-row field replacement of the dynamic `UPDATE ... SET` statement:
each provided field overwrites, each omitted field is left untouched. -/
def applyUpdate (d? : Option Date) (a? : Option ℚ) (c? s? n? : Option String)
    (x : Expense) : Expense :=
  { x with date := d?.getD x.date, amount := a?.getD x.amount,
           category := c?.getD x.category, subcategory := s?.getD x.subcategory,
           note := n?.getD x.note }

/-- Model of the `update_expense` tool. The existence check runs first; then
each provided field is validated (`subcategory or ""` maps `None` and the
empty string both to `""`); a category-less call never validates the
subcategory; the no-fields check runs last. -/
def update_expense (cats : List (String × List String)) (db : DB) (id : Nat)
    (d? : Option Date) (a? : Option ℚ) (c? s? n? : Option String) :
    DB × UpdateResult :=
  if db.expenses.any (fun x => x.id == id) then
    if d?.any (fun d => ¬ validate_date d) then
      (db, ⟨"error", "Invalid date format. Use YYYY-MM-DD", none⟩)
    else if a?.any (fun a => ¬ validate_amount a) then
      (db, ⟨"error", "Amount must be a positive number", none⟩)
    else
      match c?.map (fun c => validate_category cats c (s?.getD (""))) with
      | some (some e) => (db, ⟨"error", e, none⟩)
      | _ =>
        if d?.isNone && a?.isNone && c?.isNone && s?.isNone && n?.isNone then
          (db, ⟨"error", "No fields provided to update", none⟩)
        else
          ({ db with expenses := db.expenses.map (fun x =>
              if x.id == id then applyUpdate d? a? c? s? n? x else x) },
           ⟨"ok", ("Expense ") ++ toString id ++ (" updated successfully"), none⟩)
  else
    (db, ⟨"error", ("Expense with id ") ++ toString id ++ (" not found"), none⟩)

/-- Result dict of `delete_expense`. -/
structure DeleteResult where
  status : String
  message : String
  deleted_count : Option Nat
deriving DecidableEq

/-- The range/category/delete-all tail of `delete_expense` (lines 358-404),
reached when neither `id` nor a non-empty `ids` was supplied. `range` is
`some` exactly when both `start_date` and `end_date` were supplied. -/
def delete_tail (db : DB) (range : Option (Date × Date))
    (category : Option String) (delete_all : Bool) : DB × DeleteResult :=
  let hasCond := range.isSome || category.isSome
  if delete_all && !hasCond then
    if db.expenses.length = 0 then
      (db, ⟨"error", "No expenses to delete", none⟩)
    else
      ({ db with expenses := [] },
       ⟨"ok", ("All ") ++ toString db.expenses.length ++ (" expenses deleted"),
        some db.expenses.length⟩)
  else if hasCond then
    let p := fun x : Expense =>
      (match range with
       | some (s, e) => dateLeb s x.date && dateLeb x.date e
       | none => true) &&
      (match category with
       | some c => x.category == c
       | none => true)
    let cnt := (db.expenses.filter p).length
    if cnt = 0 then
      (db, ⟨"error", "No expenses found matching the criteria", none⟩)
    else
      ({ db with expenses := db.expenses.filter (fun x => ! p x) },
       ⟨"ok", toString cnt ++ (" expense(s) deleted successfully"), some cnt⟩)
  else
    (db, ⟨"error",
      "No deletion criteria provided. Specify id, ids, date range, category, or delete_all=True",
      none⟩)

/-- Model of the `delete_expense` tool: the `id` branch runs first, then the
non-empty `ids` branch, then the shared range/category/delete-all tail (an
empty `ids` list falls through exactly as the source's `len(ids) > 0` guard
does; a half-specified range contributes no condition). -/
def delete_expense (db : DB) (id : Option Nat) (ids : Option (List Nat))
    (start_date end_date : Option Date) (category : Option String)
    (delete_all : Bool) : DB × DeleteResult :=
  match id with
  | some i =>
    if db.expenses.any (fun x => x.id == i) then
      ({ db with expenses := db.expenses.filter (fun x => ! (x.id == i)) },
       ⟨"ok", ("Expense ") ++ toString i ++ (" deleted successfully"), some 1⟩)
    else
      (db, ⟨"error", ("Expense with id ") ++ toString i ++ (" not found"), none⟩)
  | none =>
    match ids with
    | some l =>
      if 0 < l.length then
        let cnt := (db.expenses.filter (fun x => l.contains x.id)).length
        if cnt = 0 then
          (db, ⟨"error", "No expenses found with the provided IDs", none⟩)
        else
          ({ db with expenses := db.expenses.filter (fun x => ! l.contains x.id) },
           ⟨"ok", toString cnt ++ (" expense(s) deleted successfully"), some cnt⟩)
      else
        match start_date, end_date with
        | some s, some e =>
          if ¬ (validate_date s && validate_date e) then
            (db, ⟨"error", "Invalid date format. Use YYYY-MM-DD", none⟩)
          else delete_tail db (some (s, e)) category delete_all
        | _, _ => delete_tail db none category delete_all
    | none =>
      match start_date, end_date with
      | some s, some e =>
        if ¬ (validate_date s && validate_date e) then
          (db, ⟨"error", "Invalid date format. Use YYYY-MM-DD", none⟩)
        else delete_tail db (some (s, e)) category delete_all
      | _, _ => delete_tail db none category delete_all

/-- Result dict of `add_recurring_expense`. -/
structure RecurringResult where
  status : String
  recurring_id : Option Nat
  first_expense_id : Option Nat
  budget_alert : Option BudgetAlert
deriving DecidableEq

/-- Model of the `add_recurring_expense` tool: validate, insert the
definition (last_applied initialised to the start date, active defaulting to
true), insert the first expense dated at the start date with the
recurring-marker note, then run the inline budget check. -/
def add_recurring_expense (cats : List (String × List String)) (db : DB)
    (amount : ℚ) (category frequency : String) (start_date : Date)
    (subcategory note : String) (end_date : Option Date) :
    DB × RecurringResult :=
  if ¬ validate_amount amount then
    (db, ⟨"error", none, none, none⟩)
  else if ¬ validate_date start_date then
    (db, ⟨"error", none, none, none⟩)
  else if end_date.any (fun d => ¬ validate_date d) then
    (db, ⟨"error", none, none, none⟩)
  else if ¬ (frequency = "daily" ∨ frequency = "weekly" ∨
             frequency = "monthly" ∨ frequency = "yearly") then
    (db, ⟨"error", none, none, none⟩)
  else
    match validate_category cats category subcategory with
    | some _ => (db, ⟨"error", none, none, none⟩)
    | none =>
      let recDef : Recurring := ⟨db.nextRecurringId, amount, category,
        subcategory, note, frequency, start_date, end_date, start_date, true⟩
      let recurring_note :=
        if note ≠ "" then ("[Recurring ") ++ frequency ++ ("] ") ++ note
        else ("Recurring ") ++ frequency ++ (" expense")
      let exp : Expense := ⟨db.nextExpenseId, start_date, amount, category,
        subcategory, recurring_note⟩
      let db' : DB := { db with
        recurring := db.recurring ++ [recDef],
        nextRecurringId := db.nextRecurringId + 1,
        expenses := db.expenses ++ [exp],
        nextExpenseId := db.nextExpenseId + 1 }
      let alert := budgetCheckWith lastDayRecurring db' category
        start_date.year start_date.month
      (db', ⟨"ok", some db.nextRecurringId, some db.nextExpenseId, alert⟩)

/-- Output order of `list_recurring_expenses` (`ORDER BY id DESC`). -/
def recLeb (a b : Recurring) : Bool :=
  if b.id ≤ a.id then true else false

/-- Model of the `list_recurring_expenses` tool (the returned row list). -/
def list_recurring_expenses (db : DB) (active_only : Bool) : List Recurring :=
  List.insertionSort (fun a b => recLeb a b = true)
    (if active_only then db.recurring.filter (fun r => r.active) else db.recurring)

/-- Model of the `deactivate_recurring_expense` tool: flips `active` to
false for the addressed row; the row is never deleted. -/
def deactivate_recurring_expense (db : DB) (id : Nat) : DB × UpdateResult :=
  if db.recurring.any (fun r => r.id == id) then
    ({ db with recurring := db.recurring.map (fun r =>
        if r.id == id then { r with active := false } else r) },
     ⟨"ok", ("Recurring expense ") ++ toString id ++ (" deactivated"), none⟩)
  else
    (db, ⟨"error", ("Recurring expense with id ") ++ toString id ++ (" not found"), none⟩)

/-- Row filter of a `date BETWEEN ? AND ?` clause. -/
def inRangeb (s e : Date) (x : Expense) : Bool :=
  dateLeb s x.date && dateLeb x.date e

/-- The rows of the ledger falling in an inclusive date range. -/
def rangeExpenses (db : DB) (s e : Date) : List Expense :=
  db.expenses.filter (inRangeb s e)

/-- Exact `SUM(amount)` of one `GROUP BY category, subcategory` group. -/
def groupTotal (l : List Expense) (cat sub : String) : ℚ :=
  ((l.filter (fun x => x.category == cat && x.subcategory == sub)).map
    (fun x => x.amount)).sum

/-- `COUNT(*)` of one `GROUP BY category, subcategory` group. -/
def groupCount (l : List Expense) (cat sub : String) : Nat :=
  (l.filter (fun x => x.category == cat && x.subcategory == sub)).length

/-- The distinct subcategories occurring under a category, in first-occurrence
order (the set of `GROUP BY` keys for that category). -/
def catSubs (l : List Expense) (cat : String) : List String :=
  ((l.filter (fun x => x.category == cat)).map (fun x => x.subcategory)).dedup

/-- The category accumulator of the Python loop: the sum of the (exact)
group totals of the category's groups. -/
def catTotalExact (l : List Expense) (cat : String) : ℚ :=
  ((catSubs l cat).map (fun sub => groupTotal l cat sub)).sum

/-- The category count accumulator: the sum of the group counts. -/
def catCount (l : List Expense) (cat : String) : Nat :=
  ((catSubs l cat).map (fun sub => groupCount l cat sub)).sum

/-- One subcategory entry of the breakdown response, with the rounding the
source applies to each reported figure. -/
structure SubEntry where
  subcategory : String
  total : ℚ
  count : Nat
  average : ℚ
deriving DecidableEq

/-- One category entry of the breakdown response. -/
structure CatEntry where
  total : ℚ
  count : Nat
  subcategories : List SubEntry
deriving DecidableEq

/-- Result dict of `get_category_breakdown`. -/
structure BreakdownResult where
  status : String
  breakdown : List (String × CatEntry)
deriving DecidableEq

/-- The reported entry for one category: the reported category total is the
rounded sum of the exact group totals, each subcategory entry reports its own
rounded total, count, and rounded average. -/
def catEntry (l : List Expense) (cat : String) : CatEntry :=
  ⟨round2 (catTotalExact l cat), catCount l cat,
   (catSubs l cat).map (fun sub =>
     ⟨sub, round2 (groupTotal l cat sub), groupCount l cat sub,
      round2 (groupTotal l cat sub / (groupCount l cat sub : ℚ))⟩)⟩

/-- Model of the `get_category_breakdown` tool (list order of categories is
first-occurrence order; the source orders groups by category and descending
total, which the sum claims do not depend on). -/
def get_category_breakdown (db : DB) (s e : Date) : BreakdownResult :=
  if validate_date s && validate_date e then
    let l := rangeExpenses db s e
    ⟨"ok", ((l.map (fun x => x.category)).dedup).map (fun c => (c, catEntry l c))⟩
  else ⟨"error", []⟩

theorem dateLeb_iff (a b : Date) : dateLeb a b = true ↔
    a.year < b.year ∨ (a.year = b.year ∧
      (a.month < b.month ∨ (a.month = b.month ∧ a.day ≤ b.day))) := by
  unfold dateLeb
  split_ifs <;> simp <;> omega

theorem dateLeb_total (a b : Date) : dateLeb a b = true ∨ dateLeb b a = true := by
  rw [dateLeb_iff, dateLeb_iff]
  omega

theorem dateLeb_trans {a b c : Date} (h1 : dateLeb a b = true)
    (h2 : dateLeb b c = true) : dateLeb a c = true := by
  rw [dateLeb_iff] at *
  omega

theorem dateLeb_antisymm {a b : Date} (h1 : dateLeb a b = true)
    (h2 : dateLeb b a = true) : a = b := by
  obtain ⟨ay, am, ad⟩ := a
  obtain ⟨by', bm, bd⟩ := b
  rw [dateLeb_iff] at h1 h2
  simp only [Date.mk.injEq]
  simp only at h1 h2
  omega

theorem expLeb_total (a b : Expense) : expLeb a b = true ∨ expLeb b a = true := by
  unfold expLeb
  by_cases h : a.date = b.date
  · simp [h]
    omega
  · have h' : ¬ b.date = a.date := fun hh => h hh.symm
    simp [h, h']
    exact dateLeb_total b.date a.date

theorem expLeb_trans {a b c : Expense} (h1 : expLeb a b = true)
    (h2 : expLeb b c = true) : expLeb a c = true := by
  unfold expLeb at *
  by_cases hab : a.date = b.date <;> by_cases hbc : b.date = c.date
  · have hac : a.date = c.date := hab.trans hbc
    simp_all
    omega
  · have hac : ¬ a.date = c.date := fun h => hbc (hab ▸ h)
    simp_all [hab]
  · have hac : ¬ a.date = c.date := fun h => hab (h.trans hbc.symm)
    simp_all [hbc]
  · by_cases hac : a.date = c.date
    · exfalso
      simp_all
      exact hbc (dateLeb_antisymm h2 (hac ▸ h1)).symm
    · simp_all
      exact dateLeb_trans h2 h1

instance : IsTotal Expense (fun a b => expLeb a b = true) :=
  ⟨expLeb_total⟩

instance : IsTrans Expense (fun a b => expLeb a b = true) :=
  ⟨fun _ _ _ => expLeb_trans⟩

theorem recLeb_total (a b : Recurring) : recLeb a b = true ∨ recLeb b a = true := by
  unfold recLeb
  split_ifs <;> simp_all <;> omega

theorem recLeb_trans {a b c : Recurring} (h1 : recLeb a b = true)
    (h2 : recLeb b c = true) : recLeb a c = true := by
  unfold recLeb at *
  split_ifs at * <;> simp_all <;> omega

instance : IsTotal Recurring (fun a b => recLeb a b = true) :=
  ⟨recLeb_total⟩

instance : IsTrans Recurring (fun a b => recLeb a b = true) :=
  ⟨fun _ _ _ => recLeb_trans⟩

theorem update_expense_ok (cats : List (String × List String)) (db : DB)
    (id : Nat) (d? : Option Date) (a? : Option ℚ) (c? s? n? : Option String)
    (hany : db.expenses.any (fun x => x.id == id) = true)
    (hd : ∀ d, d? = some d → validate_date d = true)
    (ha : ∀ a, a? = some a → validate_amount a = true)
    (hc : ∀ c, c? = some c → validate_category cats c (s?.getD ("")) = none)
    (hne : ¬ (d? = none ∧ a? = none ∧ c? = none ∧ s? = none ∧ n? = none)) :
    update_expense cats db id d? a? c? s? n? =
      ({ db with expenses := db.expenses.map (fun x =>
          if x.id == id then applyUpdate d? a? c? s? n? x else x) },
       ⟨"ok", ("Expense ") ++ toString id ++ (" updated successfully"), none⟩) := by
  have hd' : d?.any (fun d => ¬ validate_date d) = false := by
    cases d? with
    | none => rfl
    | some d => simp [hd d rfl]
  have ha' : a?.any (fun a => ¬ validate_amount a) = false := by
    cases a? with
    | none => rfl
    | some a => simp [ha a rfl]
  have hne' : (d?.isNone && a?.isNone && c?.isNone && s?.isNone && n?.isNone) = false := by
    rw [Bool.eq_false_iff]
    intro h
    apply hne
    simp only [Bool.and_eq_true, Option.isNone_iff_eq_none] at h
    tauto
  clear hd' ha' hne'
  cases c? with
  | none =>
    simp [update_expense, hany]
    split_ifs with h1 h2 h3
    · exfalso
      cases d? with
      | none => simp at h1
      | some d => simp [hd d rfl] at h1
    · exfalso
      cases a? with
      | none => simp at h2
      | some a => simp [ha a rfl] at h2
    · exact absurd ⟨h3.1.1.1, h3.1.1.2, rfl, h3.1.2, h3.2⟩ hne
    · rfl
  | some c =>
    have hcc := hc c rfl
    simp [update_expense, hany, hcc]
    split_ifs with h1 h2
    · exfalso
      cases d? with
      | none => simp at h1
      | some d => simp [hd d rfl] at h1
    · exfalso
      cases a? with
      | none => simp at h2
      | some a => simp [ha a rfl] at h2
    · rfl

theorem update_alert_always_none (cats : List (String × List String)) (db : DB)
    (id : Nat) (d? : Option Date) (a? : Option ℚ) (c? s? n? : Option String) :
    (update_expense cats db id d? a? c? s? n?).2.budget_alert = none := by
  unfold update_expense
  repeat' split
  all_goals rfl

/-- C10: an `update_expense` call whose id matches no expense returns the
not-found error and leaves the database untouched, whatever the provided
field values are — the existence check precedes all field validation. -/
theorem update_nonexistent_id_not_found (cats : List (String × List String))
    (db : DB) (id : Nat) (d? : Option Date) (a? : Option ℚ)
    (c? s? n? : Option String) (hid : ∀ x ∈ db.expenses, x.id ≠ id) :
    update_expense cats db id d? a? c? s? n? =
      (db, ⟨"error", ("Expense with id ") ++ toString id ++ (" not found"),
        none⟩) := by
  have h : db.expenses.any (fun x => x.id == id) = false := by
    simp only [List.any_eq_false, beq_iff_eq]
    exact hid
  simp [update_expense, h]

/-- Witness for C10: a call on an empty ledger with an invalid date, a
non-positive amount and an unknown category still yields not-found. -/
theorem update_nonexistent_id_not_found_witness :
    update_expense [(("food"), [("lunch")])] ⟨[], 1, [], [], 1⟩ 7
        (some ⟨2026, 13, 40⟩) (some (-5)) (some ("nonsense")) none none =
      (⟨[], 1, [], [], 1⟩, ⟨"error", ("Expense with id ") ++ toString 7 ++
        (" not found"), none⟩) :=
  update_nonexistent_id_not_found [(("food"), [("lunch")])] ⟨[], 1, [], [], 1⟩ 7
    (some ⟨2026, 13, 40⟩) (some (-5)) (some ("nonsense")) none none
    (by intro x hx; simp at hx)

/-- C7: updating only the subcategory of an existing expense writes it
without any validation against the record's existing category (no taxonomy
hypothesis is needed for the success), while a call that also supplies a
category validates the subcategory against that new category. -/
theorem update_subcategory_unvalidated (cats : List (String × List String))
    (db : DB) (id : Nat) (x : Expense) (hx : x ∈ db.expenses)
    (hid : x.id = id) (sub : String) :
    ((update_expense cats db id none none none (some sub) none).2.status = "ok" ∧
      { x with subcategory := sub } ∈
        (update_expense cats db id none none none (some sub) none).1.expenses) ∧
    (∀ c err, validate_category cats c sub = some err →
      update_expense cats db id none none (some c) (some sub) none =
        (db, ⟨"error", err, none⟩)) := by
  have hany : db.expenses.any (fun y => y.id == id) = true :=
    List.any_eq_true.mpr ⟨x, hx, by simp [hid]⟩
  constructor
  · have hok := update_expense_ok cats db id none none none (some sub) none hany
      (by intro d h; cases h) (by intro a h; cases h) (by intro c h; cases h)
      (by intro h; exact Option.noConfusion h.2.2.2.1)
    rw [hok]
    refine ⟨rfl, List.mem_map.mpr ⟨x, hx, ?_⟩⟩
    simp [applyUpdate, hid]
  · intro c err hval
    simp [update_expense, hany, hval]

/-- Witness for C7: with taxonomy food ↦ lunch only, a subcategory-only
update writes the unknown subcategory and succeeds; supplying the category
too makes the same subcategory fail validation. -/
theorem update_subcategory_unvalidated_witness :
    ((update_expense [(("food"), [("lunch")])]
        ⟨[⟨1, ⟨2026, 1, 10⟩, 5, "food", "lunch", ""⟩], 2, [], [], 1⟩
        1 none none none (some ("garbage")) none).2.status = "ok" ∧
      (⟨1, ⟨2026, 1, 10⟩, 5, "food", "garbage", ""⟩ : Expense) ∈
        (update_expense [(("food"), [("lunch")])]
          ⟨[⟨1, ⟨2026, 1, 10⟩, 5, "food", "lunch", ""⟩], 2, [], [], 1⟩
          1 none none none (some ("garbage")) none).1.expenses) ∧
    (∀ c err, validate_category [(("food"), [("lunch")])] c ("garbage") = some err →
      update_expense [(("food"), [("lunch")])]
          ⟨[⟨1, ⟨2026, 1, 10⟩, 5, "food", "lunch", ""⟩], 2, [], [], 1⟩
          1 none none (some c) (some ("garbage")) none =
        (⟨[⟨1, ⟨2026, 1, 10⟩, 5, "food", "lunch", ""⟩], 2, [], [], 1⟩,
         ⟨"error", err, none⟩)) :=
  update_subcategory_unvalidated [(("food"), [("lunch")])]
    ⟨[⟨1, ⟨2026, 1, 10⟩, 5, "food", "lunch", ""⟩], 2, [], [], 1⟩
    1 ⟨1, ⟨2026, 1, 10⟩, 5, "food", "lunch", ""⟩ (by simp) rfl ("garbage")

/-- C8: a successful partial update changes exactly the provided fields of
the addressed record (omitted fields keep their stored values and need no
validity hypothesis), leaves every other record untouched in both
directions, preserves the row count, and a call providing no field at all
is rejected with the no-fields validation error and an unchanged database. -/
theorem update_partial_frame (cats : List (String × List String)) (db : DB)
    (id : Nat) (x : Expense) (hx : x ∈ db.expenses) (hid : x.id = id)
    (d? : Option Date) (a? : Option ℚ) (c? s? n? : Option String)
    (hd : ∀ d, d? = some d → validate_date d = true)
    (ha : ∀ a, a? = some a → validate_amount a = true)
    (hc : ∀ c, c? = some c → validate_category cats c (s?.getD ("")) = none) :
    (¬ (d? = none ∧ a? = none ∧ c? = none ∧ s? = none ∧ n? = none) →
      (update_expense cats db id d? a? c? s? n?).2.status = "ok" ∧
      ({ id := x.id, date := d?.getD x.date, amount := a?.getD x.amount,
         category := c?.getD x.category, subcategory := s?.getD x.subcategory,
         note := n?.getD x.note } : Expense) ∈
        (update_expense cats db id d? a? c? s? n?).1.expenses ∧
      (∀ y ∈ db.expenses, y.id ≠ id →
        y ∈ (update_expense cats db id d? a? c? s? n?).1.expenses) ∧
      (∀ y ∈ (update_expense cats db id d? a? c? s? n?).1.expenses,
        y.id ≠ id → y ∈ db.expenses) ∧
      (update_expense cats db id d? a? c? s? n?).1.expenses.length =
        db.expenses.length) ∧
    ((d? = none ∧ a? = none ∧ c? = none ∧ s? = none ∧ n? = none) →
      (update_expense cats db id d? a? c? s? n?).1 = db ∧
      (update_expense cats db id d? a? c? s? n?).2 =
        ⟨"error", "No fields provided to update", none⟩) := by
  have hany : db.expenses.any (fun y => y.id == id) = true :=
    List.any_eq_true.mpr ⟨x, hx, by simp [hid]⟩
  constructor
  · intro hne
    have hok := update_expense_ok cats db id d? a? c? s? n? hany hd ha hc hne
    rw [hok]
    refine ⟨rfl, ?_, ?_, ?_, by simp⟩
    · refine List.mem_map.mpr ⟨x, hx, ?_⟩
      have hbeq : (x.id == id) = true := by simp [hid]
      simp only [hbeq, eq_self_iff_true, if_true]
      rfl
    · intro y hy hyid
      refine List.mem_map.mpr ⟨y, hy, ?_⟩
      simp [hyid]
    · intro y hy hyid
      obtain ⟨z, hz, hfz⟩ := List.mem_map.mp hy
      by_cases hzid : z.id = id
      · exfalso
        apply hyid
        have : (applyUpdate d? a? c? s? n? z).id = z.id := rfl
        simp only [hzid, beq_self_eq_true, if_true] at hfz
        rw [← hfz]
        rw [this, hzid]
      · simp [hzid] at hfz
        rwa [← hfz]
  · rintro ⟨h1, h2, h3, h4, h5⟩
    subst h1; subst h2; subst h3; subst h4; subst h5
    simp [update_expense, hany]

/-- Witness for C8 at the spec example: an amount-only update on id 5
changes just the amount and leaves date, category, subcategory and note as
stored, and the no-fields call errors. -/
theorem update_partial_frame_witness :
    ((update_expense [(("food"), [("lunch")])]
        ⟨[⟨5, ⟨2026, 2, 3⟩, 7, "food", "lunch", "old"⟩], 6, [], [], 1⟩
        5 none (some (85/2)) none none none).2.status = "ok" ∧
      (⟨5, ⟨2026, 2, 3⟩, 85/2, "food", "lunch", "old"⟩ : Expense) ∈
        (update_expense [(("food"), [("lunch")])]
          ⟨[⟨5, ⟨2026, 2, 3⟩, 7, "food", "lunch", "old"⟩], 6, [], [], 1⟩
          5 none (some (85/2)) none none none).1.expenses) ∧
    ((update_expense [(("food"), [("lunch")])]
        ⟨[⟨5, ⟨2026, 2, 3⟩, 7, "food", "lunch", "old"⟩], 6, [], [], 1⟩
        5 none none none none none).2 =
      ⟨"error", "No fields provided to update", none⟩) := by
  have h := update_partial_frame [(("food"), [("lunch")])]
    ⟨[⟨5, ⟨2026, 2, 3⟩, 7, "food", "lunch", "old"⟩], 6, [], [], 1⟩
    5 ⟨5, ⟨2026, 2, 3⟩, 7, "food", "lunch", "old"⟩ (by simp) rfl
    none (some (85/2)) none none none
    (by intro d hh; cases hh)
    (by intro a hh; cases hh; norm_num [validate_amount])
    (by intro c hh; cases hh)
  have h2 := update_partial_frame [(("food"), [("lunch")])]
    ⟨[⟨5, ⟨2026, 2, 3⟩, 7, "food", "lunch", "old"⟩], 6, [], [], 1⟩
    5 ⟨5, ⟨2026, 2, 3⟩, 7, "food", "lunch", "old"⟩ (by simp) rfl
    none none none none none
    (by intro d hh; cases hh) (by intro a hh; cases hh) (by intro c hh; cases hh)
  have hmain := h.1 (by intro hh; exact Option.noConfusion hh.2.1)
  exact ⟨⟨hmain.1, hmain.2.1⟩, (h2.2 ⟨rfl, rfl, rfl, rfl, rfl⟩).2⟩

theorem add_expense_ok (cats : List (String × List String)) (db : DB)
    (date : Date) (amount : ℚ) (category subcategory note : String)
    (hd : validate_date date = true) (ha : validate_amount amount = true)
    (hc : validate_category cats category subcategory = none) :
    add_expense cats db date amount category subcategory note =
      ({ db with
          expenses := db.expenses ++
            [⟨db.nextExpenseId, date, amount, category, subcategory, note⟩],
          nextExpenseId := db.nextExpenseId + 1 },
       ⟨"ok", "Expense added successfully", some db.nextExpenseId,
        budgetCheckWith lastDayAdd
          { db with
            expenses := db.expenses ++
              [⟨db.nextExpenseId, date, amount, category, subcategory, note⟩],
            nextExpenseId := db.nextExpenseId + 1 }
          category date.year date.month⟩) := by
  simp [add_expense, hd, ha, hc]

/-- Counterexample to C3: with a food budget of limit 100 and threshold 0.8,
updating the sole food expense of 2026-01 from 50 to 90 succeeds and pushes
the month's spend to the alert boundary (verdict WARNING), yet the update
response carries no budget alert — contradicting the claim that a mutating
update returns the alert inline. -/
theorem update_no_inline_alert_cex :
    ((update_expense [(("food"), [])]
        ⟨[⟨1, ⟨2026, 1, 10⟩, 50, "food", "", ""⟩], 2, [⟨"food", 100, 4/5⟩], [], 1⟩
        1 none (some 90) none none none).2.status = "ok") ∧
    budgetVerdict
      (monthSpendWith lastDayAdd
        (update_expense [(("food"), [])]
          ⟨[⟨1, ⟨2026, 1, 10⟩, 50, "food", "", ""⟩], 2, [⟨"food", 100, 4/5⟩], [], 1⟩
          1 none (some 90) none none none).1.expenses ("food") 2026 1)
      100 (4/5) = .WARNING ∧
    ((update_expense [(("food"), [])]
        ⟨[⟨1, ⟨2026, 1, 10⟩, 50, "food", "", ""⟩], 2, [⟨"food", 100, 4/5⟩], [], 1⟩
        1 none (some 90) none none none).2.budget_alert = none) := by
  have hu : update_expense [(("food"), [])]
      ⟨[⟨1, ⟨2026, 1, 10⟩, 50, "food", "", ""⟩], 2, [⟨"food", 100, 4/5⟩], [], 1⟩
      1 none (some 90) none none none =
      (⟨[⟨1, ⟨2026, 1, 10⟩, 90, "food", "", ""⟩], 2, [⟨"food", 100, 4/5⟩], [], 1⟩,
       ⟨"ok", ("Expense ") ++ toString 1 ++ (" updated successfully"), none⟩) := by
    rw [update_expense_ok]
    · simp [applyUpdate]
    · simp
    · intro d hh; cases hh
    · intro a hh; cases hh; norm_num [validate_amount]
    · intro c hh; cases hh
    · intro hh; exact Option.noConfusion hh.2.1
  rw [hu]
  refine ⟨rfl, ?_, rfl⟩
  norm_num [monthSpendWith, budgetVerdict, budgetPercentage, dateLeb, lastDayAdd]

/-- C3 (amended): only the add paths perform the synchronous budget check —
a successful `add_expense` whose category has a budget and whose post-insert
month spend reaches the alert boundary carries the alert inline in its own
response, while `update_expense` never attaches a budget alert to its
response, whatever the call. -/
theorem inline_alert_adds_only (cats : List (String × List String)) (db : DB)
    (date : Date) (amount : ℚ) (category subcategory note : String) (b : Budget)
    (hd : validate_date date = true) (ha : validate_amount amount = true)
    (hc : validate_category cats category subcategory = none)
    (hb : lookupBudget db category = some b)
    (halert : budgetVerdict
      (monthSpendWith lastDayAdd (db.expenses ++
        [⟨db.nextExpenseId, date, amount, category, subcategory, note⟩])
        category date.year date.month)
      b.monthly_limit b.alert_threshold ≠ .OK) :
    ((add_expense cats db date amount category subcategory note).2.status = "ok" ∧
     (add_expense cats db date amount category subcategory note).2.budget_alert ≠
       none) ∧
    (∀ (db2 : DB) (id : Nat) (d? : Option Date) (a? : Option ℚ)
      (c? s? n? : Option String),
      (update_expense cats db2 id d? a? c? s? n?).2.budget_alert = none) := by
  rw [add_expense_ok cats db date amount category subcategory note hd ha hc]
  have hb' : lookupBudget
      { db with
        expenses := db.expenses ++
          [⟨db.nextExpenseId, date, amount, category, subcategory, note⟩],
        nextExpenseId := db.nextExpenseId + 1 } category = some b := hb
  refine ⟨⟨rfl, ?_⟩, fun db2 id d? a? c? s? n? =>
    update_alert_always_none cats db2 id d? a? c? s? n?⟩
  cases hv : budgetVerdict
      (monthSpendWith lastDayAdd (db.expenses ++
        [⟨db.nextExpenseId, date, amount, category, subcategory, note⟩])
        category date.year date.month)
      b.monthly_limit b.alert_threshold with
  | OK => exact absurd hv halert
  | WARNING => simp [budgetCheckWith, hb', hv]
  | CRITICAL => simp [budgetCheckWith, hb', hv]

/-- Witness for C3 (amended): adding a 90 food expense against the
limit-100, threshold-0.8 food budget returns WARNING inline. -/
theorem inline_alert_adds_only_witness :
    ((add_expense [(("food"), [])] ⟨[], 1, [⟨"food", 100, 4/5⟩], [], 1⟩
        ⟨2026, 1, 10⟩ 90 ("food") ("") ("")).2.status = "ok" ∧
     (add_expense [(("food"), [])] ⟨[], 1, [⟨"food", 100, 4/5⟩], [], 1⟩
        ⟨2026, 1, 10⟩ 90 ("food") ("") ("")).2.budget_alert ≠ none) ∧
    (∀ (db2 : DB) (id : Nat) (d? : Option Date) (a? : Option ℚ)
      (c? s? n? : Option String),
      (update_expense [(("food"), [])] db2 id d? a? c? s? n?).2.budget_alert =
        none) :=
  inline_alert_adds_only [(("food"), [])] ⟨[], 1, [⟨"food", 100, 4/5⟩], [], 1⟩
    ⟨2026, 1, 10⟩ 90 ("food") ("") ("") ⟨"food", 100, 4/5⟩
    (by decide) (by norm_num [validate_amount]) (by rfl) (by rfl)
    (by norm_num [monthSpendWith, budgetVerdict, budgetPercentage, dateLeb,
      lastDayAdd]; decide)

theorem delete_tail_da_irrelevant (db : DB) (range : Option (Date × Date))
    (cat : Option String) (h : (range.isSome || cat.isSome) = true) (da : Bool) :
    delete_tail db range cat da = delete_tail db range cat false := by
  unfold delete_tail
  simp [h]

/-- Counterexample to C4: with a two-row ledger, `delete_all=True` together
with a lone `start_date` (no `end_date`) deletes every row — delete_all
takes effect although another addressing field is present, contradicting
the claim that it only takes effect when no other addressing fields are
present. -/
theorem delete_all_with_lone_start_date_cex :
    (delete_expense
        ⟨[⟨1, ⟨2026, 1, 5⟩, 10, "food", "", ""⟩,
          ⟨2, ⟨2026, 2, 6⟩, 20, "travel", "", ""⟩], 3, [], [], 1⟩
        none none (some ⟨2026, 1, 1⟩) none none true).1.expenses = [] ∧
    (delete_expense
        ⟨[⟨1, ⟨2026, 1, 5⟩, 10, "food", "", ""⟩,
          ⟨2, ⟨2026, 2, 6⟩, 20, "travel", "", ""⟩], 3, [], [], 1⟩
        none none (some ⟨2026, 1, 1⟩) none none true).2.status = "ok" ∧
    (delete_expense
        ⟨[⟨1, ⟨2026, 1, 5⟩, 10, "food", "", ""⟩,
          ⟨2, ⟨2026, 2, 6⟩, 20, "travel", "", ""⟩], 3, [], [], 1⟩
        none none (some ⟨2026, 1, 1⟩) none none true).2.deleted_count = some 2 :=
  ⟨rfl, rfl, rfl⟩

/-- C4 (amended): the delete addressing modes apply with precedence id >
non-empty ids > (complete range / category conditions) > delete_all, the
selected mode ignoring all later fields; delete_all takes effect only when
no complete condition is formed (a lone start_date without end_date is
ignored and delete_all still fires); delete_all on a non-empty ledger
deletes every row and reports the prior count; delete_all on an empty
ledger is an error; and a call with no criteria at all is a validation
error. -/
theorem delete_modes_amended (db : DB) (i : Nat) (l : List Nat)
    (ids : Option (List Nat)) (sd ed : Option Date) (c : Option String)
    (da : Bool) (s e : Date) (cs : String) :
    (delete_expense db (some i) ids sd ed c da =
      delete_expense db (some i) none none none none false) ∧
    (l ≠ [] → delete_expense db none (some l) sd ed c da =
      delete_expense db none (some l) none none none false) ∧
    (delete_expense db none none (some s) (some e) c da =
      delete_expense db none none (some s) (some e) c false) ∧
    (delete_expense db none none sd ed (some cs) da =
      delete_expense db none none sd ed (some cs) false) ∧
    (db.expenses ≠ [] → delete_expense db none none none none none true =
      ({ db with expenses := [] },
       ⟨"ok", ("All ") ++ toString db.expenses.length ++ (" expenses deleted"),
        some db.expenses.length⟩)) ∧
    (db.expenses = [] → delete_expense db none none none none none true =
      (db, ⟨"error", "No expenses to delete", none⟩)) ∧
    (delete_expense db none none none none none false =
      (db, ⟨"error",
        "No deletion criteria provided. Specify id, ids, date range, category, or delete_all=True",
        none⟩)) ∧
    (delete_expense db none none (some s) none none da =
      delete_expense db none none none none none da) := by
  refine ⟨rfl, ?_, ?_, ?_, ?_, ?_, rfl, rfl⟩
  · intro hl
    have hpos : 0 < l.length := List.length_pos.mpr hl
    simp only [delete_expense]
    rw [if_pos hpos, if_pos hpos]
  · simp only [delete_expense]
    split_ifs with h
    · exact delete_tail_da_irrelevant db (some (s, e)) c (by simp) da
    · rfl
  · rcases sd with _ | s' <;> rcases ed with _ | e' <;> simp only [delete_expense]
    · exact delete_tail_da_irrelevant db none (some cs) (by simp) da
    · exact delete_tail_da_irrelevant db none (some cs) (by simp) da
    · exact delete_tail_da_irrelevant db none (some cs) (by simp) da
    · split_ifs with h
      · exact delete_tail_da_irrelevant db (some (s', e')) (some cs) (by simp) da
      · rfl
  · intro h
    have hlen : ¬ db.expenses.length = 0 := by
      simpa [List.length_eq_zero] using h
    simp only [delete_expense, delete_tail]
    simp [hlen]
  · intro h
    simp only [delete_expense, delete_tail]
    simp [h]

/-- Witness for C4 (amended) at a concrete two-row ledger. -/
theorem delete_modes_amended_witness :
    ((delete_expense
        ⟨[⟨1, ⟨2026, 1, 5⟩, 10, "food", "", ""⟩,
          ⟨2, ⟨2026, 2, 6⟩, 20, "travel", "", ""⟩], 3, [], [], 1⟩
        none (some [1]) (some ⟨2026, 3, 1⟩) (some ⟨2026, 3, 31⟩) (some ("food")) true =
      delete_expense
        ⟨[⟨1, ⟨2026, 1, 5⟩, 10, "food", "", ""⟩,
          ⟨2, ⟨2026, 2, 6⟩, 20, "travel", "", ""⟩], 3, [], [], 1⟩
        none (some [1]) none none none false) ∧
     (delete_expense
        ⟨[⟨1, ⟨2026, 1, 5⟩, 10, "food", "", ""⟩,
          ⟨2, ⟨2026, 2, 6⟩, 20, "travel", "", ""⟩], 3, [], [], 1⟩
        none none none none none true =
      (⟨[], 3, [], [], 1⟩,
       ⟨"ok", ("All ") ++ toString 2 ++ (" expenses deleted"), some 2⟩))) ∧
    (delete_expense (⟨[], 3, [], [], 1⟩ : DB) none none none none none true =
      ((⟨[], 3, [], [], 1⟩ : DB), ⟨"error", "No expenses to delete", none⟩)) := by
  have h := delete_modes_amended
    ⟨[⟨1, ⟨2026, 1, 5⟩, 10, "food", "", ""⟩,
      ⟨2, ⟨2026, 2, 6⟩, 20, "travel", "", ""⟩], 3, [], [], 1⟩
    1 [1] none (some ⟨2026, 3, 1⟩) (some ⟨2026, 3, 31⟩) (some ("food")) true
    ⟨2026, 3, 1⟩ ⟨2026, 3, 31⟩ ("food")
  have h2 := delete_modes_amended (⟨[], 3, [], [], 1⟩ : DB)
    1 [1] none none none none true ⟨2026, 3, 1⟩ ⟨2026, 3, 31⟩ ("food")
  exact ⟨⟨h.2.1 (by simp), h.2.2.2.2.1 (by simp)⟩, h2.2.2.2.2.2.1 rfl⟩

theorem dateLeb_refl (a : Date) : dateLeb a a = true := by
  rw [dateLeb_iff]
  omega

theorem expLeb_to_order {a b : Expense} (h : expLeb a b = true) :
    dateLeb b.date a.date = true ∧ (a.date = b.date → b.id ≤ a.id) := by
  unfold expLeb at h
  by_cases hd : a.date = b.date
  · simp [hd] at h
    constructor
    · rw [← hd]
      exact dateLeb_refl a.date
    · exact fun _ => h
  · simp [hd] at h
    exact ⟨h, fun hh => absurd hh hd⟩

/-- C5: after a successful add of a valid record, listing an inclusive date
range containing the record's date (category filter absent) returns that
exact record — same id, date, amount, category, subcategory and note; the
returned list is ordered by date descending with descending id as
tie-break; every returned row lies inside the inclusive bounds; and on an
initially empty ledger the listing is exactly the one added record. -/
theorem add_then_list_returns_record (cats : List (String × List String))
    (db : DB) (d : Date) (amt : ℚ) (cat sub note : String) (s e : Date)
    (hd : validate_date d = true) (ha : validate_amount amt = true)
    (hc : validate_category cats cat sub = none)
    (hs : validate_date s = true) (he : validate_date e = true)
    (hsd : dateLeb s d = true) (hde : dateLeb d e = true) :
    ((add_expense cats db d amt cat sub note).2.status = "ok") ∧
    ((add_expense cats db d amt cat sub note).2.id = some db.nextExpenseId) ∧
    ((⟨db.nextExpenseId, d, amt, cat, sub, note⟩ : Expense) ∈
      (list_expenses (add_expense cats db d amt cat sub note).1 s e none).expenses) ∧
    List.Pairwise (fun a b : Expense =>
        dateLeb b.date a.date = true ∧ (a.date = b.date → b.id ≤ a.id))
      (list_expenses (add_expense cats db d amt cat sub note).1 s e none).expenses ∧
    (∀ x ∈ (list_expenses (add_expense cats db d amt cat sub note).1 s e none).expenses,
      dateLeb s x.date = true ∧ dateLeb x.date e = true) ∧
    (db.expenses = [] →
      (list_expenses (add_expense cats db d amt cat sub note).1 s e none).expenses =
        [⟨db.nextExpenseId, d, amt, cat, sub, note⟩]) := by
  rw [add_expense_ok cats db d amt cat sub note hd ha hc]
  refine ⟨rfl, rfl, ?_, ?_, ?_, ?_⟩
  · simp only [list_expenses, hs, he, Bool.and_self, if_true]
    rw [List.mem_insertionSort, List.mem_filter]
    refine ⟨List.mem_append_right _ (List.mem_singleton_self _), ?_⟩
    simp [listFilter, hsd, hde]
  · simp only [list_expenses, hs, he, Bool.and_self, if_true]
    exact (List.sorted_insertionSort _ _).imp (fun hab => expLeb_to_order hab)
  · intro x hx
    simp only [list_expenses, hs, he, Bool.and_self, if_true] at hx
    rw [List.mem_insertionSort, List.mem_filter] at hx
    have := hx.2
    simp only [listFilter, Bool.and_eq_true] at this
    exact ⟨this.1.1, this.1.2⟩
  · intro h
    simp only [list_expenses, hs, he, Bool.and_self, if_true, h]
    simp [listFilter, hsd, hde]

/-- Witness for C5: adding a food/lunch expense to an empty ledger and
listing January 2026 returns exactly that record. -/
theorem add_then_list_returns_record_witness :
    ((⟨1, ⟨2026, 1, 15⟩, 10, "food", "lunch", "x"⟩ : Expense) ∈
      (list_expenses
        (add_expense [(("food"), [("lunch")])] ⟨[], 1, [], [], 1⟩
          ⟨2026, 1, 15⟩ 10 ("food") ("lunch") ("x")).1
        ⟨2026, 1, 1⟩ ⟨2026, 1, 31⟩ none).expenses) ∧
    ((list_expenses
        (add_expense [(("food"), [("lunch")])] ⟨[], 1, [], [], 1⟩
          ⟨2026, 1, 15⟩ 10 ("food") ("lunch") ("x")).1
        ⟨2026, 1, 1⟩ ⟨2026, 1, 31⟩ none).expenses =
      [⟨1, ⟨2026, 1, 15⟩, 10, "food", "lunch", "x"⟩]) := by
  have h := add_then_list_returns_record [(("food"), [("lunch")])]
    ⟨[], 1, [], [], 1⟩ ⟨2026, 1, 15⟩ 10 ("food") ("lunch") ("x")
    ⟨2026, 1, 1⟩ ⟨2026, 1, 31⟩ (by decide) (by decide) (by rfl)
    (by decide) (by decide) (by decide) (by decide)
  exact ⟨h.2.2.1, h.2.2.2.2.2 rfl⟩

theorem add_recurring_expense_ok (cats : List (String × List String)) (db : DB)
    (amount : ℚ) (category frequency : String) (start_date : Date)
    (subcategory note : String) (end_date : Option Date)
    (ha : validate_amount amount = true) (hd : validate_date start_date = true)
    (hed : ∀ d, end_date = some d → validate_date d = true)
    (hf : frequency = "daily" ∨ frequency = "weekly" ∨
          frequency = "monthly" ∨ frequency = "yearly")
    (hc : validate_category cats category subcategory = none) :
    add_recurring_expense cats db amount category frequency start_date
        subcategory note end_date =
      ({ db with
          recurring := db.recurring ++ [⟨db.nextRecurringId, amount, category,
            subcategory, note, frequency, start_date, end_date, start_date, true⟩],
          nextRecurringId := db.nextRecurringId + 1,
          expenses := db.expenses ++ [⟨db.nextExpenseId, start_date, amount,
            category, subcategory,
            if note ≠ "" then ("[Recurring ") ++ frequency ++ ("] ") ++ note
            else ("Recurring ") ++ frequency ++ (" expense")⟩],
          nextExpenseId := db.nextExpenseId + 1 },
       ⟨"ok", some db.nextRecurringId, some db.nextExpenseId,
        budgetCheckWith lastDayRecurring
          { db with
              recurring := db.recurring ++ [⟨db.nextRecurringId, amount, category,
                subcategory, note, frequency, start_date, end_date, start_date, true⟩],
              nextRecurringId := db.nextRecurringId + 1,
              expenses := db.expenses ++ [⟨db.nextExpenseId, start_date, amount,
                category, subcategory,
                if note ≠ "" then ("[Recurring ") ++ frequency ++ ("] ") ++ note
                else ("Recurring ") ++ frequency ++ (" expense")⟩],
              nextExpenseId := db.nextExpenseId + 1 }
          category start_date.year start_date.month⟩) := by
  have hed' : end_date.any (fun d => ! validate_date d) = false := by
    cases end_date with
    | none => rfl
    | some d => simp [hed d rfl]
  simp [add_recurring_expense, ha, hd, hed', hc, not_not_intro hf]

/-- C6: a valid `add_recurring_expense` creates exactly one definition with
last_applied initialised to the start date and active true, inserts exactly
one expense dated at the start date in the same operation (with an
auto-generated recurring-marker note when no note was supplied), the
definition appears in the active-only listing, and after deactivation it is
excluded from the active-only listing while the row itself remains stored
with active false. -/
theorem add_recurring_lifecycle (cats : List (String × List String)) (db : DB)
    (amount : ℚ) (category frequency : String) (start_date : Date)
    (subcategory note : String) (end_date : Option Date)
    (ha : validate_amount amount = true) (hd : validate_date start_date = true)
    (hed : ∀ d, end_date = some d → validate_date d = true)
    (hf : frequency = "daily" ∨ frequency = "weekly" ∨
          frequency = "monthly" ∨ frequency = "yearly")
    (hc : validate_category cats category subcategory = none) :
    ((add_recurring_expense cats db amount category frequency start_date
        subcategory note end_date).2.status = "ok") ∧
    ((add_recurring_expense cats db amount category frequency start_date
        subcategory note end_date).1.recurring =
      db.recurring ++ [⟨db.nextRecurringId, amount, category, subcategory,
        note, frequency, start_date, end_date, start_date, true⟩]) ∧
    (∃ exp : Expense,
      (add_recurring_expense cats db amount category frequency start_date
        subcategory note end_date).1.expenses = db.expenses ++ [exp] ∧
      exp.date = start_date ∧ exp.amount = amount ∧ exp.category = category ∧
      exp.subcategory = subcategory ∧
      (note = "" → ∃ rest,
        exp.note = ("Recurring ") ++ rest ∧
        exp.note = ("Recurring ") ++ frequency ++ (" expense"))) ∧
    ((⟨db.nextRecurringId, amount, category, subcategory, note, frequency,
        start_date, end_date, start_date, true⟩ : Recurring) ∈
      list_recurring_expenses
        (add_recurring_expense cats db amount category frequency start_date
          subcategory note end_date).1 true) ∧
    ((deactivate_recurring_expense
        (add_recurring_expense cats db amount category frequency start_date
          subcategory note end_date).1 db.nextRecurringId).2.status = "ok") ∧
    (∀ x ∈ list_recurring_expenses
        (deactivate_recurring_expense
          (add_recurring_expense cats db amount category frequency start_date
            subcategory note end_date).1 db.nextRecurringId).1 true,
      x.id ≠ db.nextRecurringId) ∧
    (∃ x ∈ (deactivate_recurring_expense
        (add_recurring_expense cats db amount category frequency start_date
          subcategory note end_date).1 db.nextRecurringId).1.recurring,
      x.id = db.nextRecurringId ∧ x.active = false) := by
  rw [add_recurring_expense_ok cats db amount category frequency start_date
    subcategory note end_date ha hd hed hf hc]
  have hany : (db.recurring ++ [(⟨db.nextRecurringId, amount, category,
      subcategory, note, frequency, start_date, end_date, start_date,
      true⟩ : Recurring)]).any (fun r => r.id == db.nextRecurringId) = true := by
    refine List.any_eq_true.mpr ⟨_, List.mem_append_right _ (List.mem_singleton_self _), ?_⟩
    simp
  refine ⟨rfl, rfl, ?_, ?_, ?_, ?_, ?_⟩
  · refine ⟨⟨db.nextExpenseId, start_date, amount, category, subcategory,
      if note ≠ "" then ("[Recurring ") ++ frequency ++ ("] ") ++ note
      else ("Recurring ") ++ frequency ++ (" expense")⟩,
      rfl, rfl, rfl, rfl, rfl, ?_⟩
    intro hn
    refine ⟨frequency ++ (" expense"), ?_, ?_⟩
    · simp [hn, String.append_assoc]
    · simp [hn]
  · simp only [list_recurring_expenses, if_true]
    rw [List.mem_insertionSort, List.mem_filter]
    exact ⟨List.mem_append_right _ (List.mem_singleton_self _), rfl⟩
  · simp [deactivate_recurring_expense, hany]
  · intro x hx
    simp only [deactivate_recurring_expense, hany, if_true,
      list_recurring_expenses] at hx
    rw [List.mem_insertionSort, List.mem_filter] at hx
    obtain ⟨hmem, hact⟩ := hx
    obtain ⟨z, hz, hfz⟩ := List.mem_map.mp hmem
    intro hxid
    by_cases hzid : z.id = db.nextRecurringId
    · have : x.active = false := by
        simp only [hzid, beq_self_eq_true, if_true] at hfz
        rw [← hfz]
      rw [this] at hact
      cases hact
    · have : (z.id == db.nextRecurringId) = false := by
        simp [hzid]
      rw [this] at hfz
      simp at hfz
      apply hzid
      rw [hfz]
      exact hxid
  · refine ⟨⟨db.nextRecurringId, amount, category, subcategory, note,
      frequency, start_date, end_date, start_date, false⟩, ?_, rfl, rfl⟩
    simp only [deactivate_recurring_expense, hany, if_true]
    refine List.mem_map.mpr ⟨⟨db.nextRecurringId, amount, category, subcategory,
      note, frequency, start_date, end_date, start_date, true⟩,
      List.mem_append_right _ (List.mem_singleton_self _), ?_⟩
    simp

/-- Witness for C6 at the spec example: a monthly recurring expense starting
2026-01-15 on an empty database. -/
theorem add_recurring_lifecycle_witness :
    ((add_recurring_expense [(("food"), [("lunch")])] ⟨[], 1, [], [], 1⟩
        8 ("food") ("monthly") ⟨2026, 1, 15⟩ ("") ("") none).2.status = "ok") ∧
    ((add_recurring_expense [(("food"), [("lunch")])] ⟨[], 1, [], [], 1⟩
        8 ("food") ("monthly") ⟨2026, 1, 15⟩ ("") ("") none).1.recurring =
      [⟨1, 8, "food", "", "", "monthly", ⟨2026, 1, 15⟩, none, ⟨2026, 1, 15⟩, true⟩]) ∧
    ((⟨1, 8, "food", "", "", "monthly", ⟨2026, 1, 15⟩, none, ⟨2026, 1, 15⟩,
        true⟩ : Recurring) ∈
      list_recurring_expenses
        (add_recurring_expense [(("food"), [("lunch")])] ⟨[], 1, [], [], 1⟩
          8 ("food") ("monthly") ⟨2026, 1, 15⟩ ("") ("") none).1 true) ∧
    (∀ x ∈ list_recurring_expenses
        (deactivate_recurring_expense
          (add_recurring_expense [(("food"), [("lunch")])] ⟨[], 1, [], [], 1⟩
            8 ("food") ("monthly") ⟨2026, 1, 15⟩ ("") ("") none).1 1).1 true,
      x.id ≠ 1) := by
  have h := add_recurring_lifecycle [(("food"), [("lunch")])] ⟨[], 1, [], [], 1⟩
    8 ("food") ("monthly") ⟨2026, 1, 15⟩ ("") ("") none
    (by decide) (by decide) (by intro d hh; cases hh) (by tauto) (by rfl)
  exact ⟨h.1, h.2.1, h.2.2.2.1, h.2.2.2.2.2.1⟩

theorem sum_map_one {α : Type} (l : List α) :
    (l.map (fun _ => (1 : ℕ))).sum = l.length := by
  induction l with
  | nil => rfl
  | cons a t ih => simp [ih, Nat.add_comm]

theorem sum_map_filter_split {α M : Type} [AddCommMonoid M] (g : α → M)
    (p : α → Bool) (l : List α) :
    ((l.filter p).map g).sum + ((l.filter (fun x => ! p x)).map g).sum =
      (l.map g).sum := by
  induction l with
  | nil => simp
  | cons a l ih =>
    cases hp : p a
    · simp only [List.filter_cons, hp, Bool.not_false, if_true, if_false,
        Bool.false_eq_true, List.map_cons, List.sum_cons]
      rw [← ih, add_left_comm]
    · simp only [List.filter_cons, hp, Bool.not_true, if_true, if_false,
        Bool.false_eq_true, List.map_cons, List.sum_cons]
      rw [← ih, add_assoc]

theorem sum_filter_key {α M : Type} [AddCommMonoid M] (f : α → String)
    (g : α → M) :
    ∀ (K : List String), K.Nodup → ∀ (l : List α), (∀ x ∈ l, f x ∈ K) →
      (K.map (fun k => ((l.filter (fun x => f x == k)).map g).sum)).sum =
        (l.map g).sum := by
  intro K
  induction K with
  | nil =>
    intro _ l hl
    have hnil : l = [] := by
      cases l with
      | nil => rfl
      | cons a t => exact absurd (hl a (List.mem_cons_self a t)) (List.not_mem_nil _)
    subst hnil
    simp
  | cons k K ih =>
    intro hK l hl
    have hK' : K.Nodup := (List.nodup_cons.mp hK).2
    have hkK : k ∉ K := (List.nodup_cons.mp hK).1
    simp only [List.map_cons, List.sum_cons]
    have hl2 : ∀ x ∈ l.filter (fun x => ! (f x == k)), f x ∈ K := by
      intro x hx
      obtain ⟨hxl, hxp⟩ := List.mem_filter.mp hx
      rcases List.mem_cons.mp (hl x hxl) with h | h
      · exfalso
        rw [h] at hxp
        simp at hxp
      · exact h
    have hmap : K.map (fun kk => ((l.filter (fun x => f x == kk)).map g).sum) =
        K.map (fun kk => (((l.filter (fun x => ! (f x == k))).filter
          (fun x => f x == kk)).map g).sum) := by
      apply List.map_congr_left
      intro kk hkk
      have hne : kk ≠ k := fun hh => hkK (hh ▸ hkk)
      congr 1
      rw [List.filter_filter]
      congr 1
      apply List.filter_congr
      intro x hxl
      cases heq : f x == kk
      · simp [heq]
      · have hfx : f x = kk := eq_of_beq heq
        have hfk : (f x == k) = false := by
          refine beq_eq_false_iff_ne.mpr ?_
          rw [hfx]
          exact hne
        simp [heq, hfk]
    rw [hmap, ih hK' (l.filter (fun x => ! (f x == k))) hl2]
    exact sum_map_filter_split g (fun x => f x == k) l

theorem sum_over_groups {α M : Type} [AddCommMonoid M] (f : α → String)
    (g : α → M) (l : List α) :
    (((l.map f).dedup).map
      (fun k => ((l.filter (fun x => f x == k)).map g).sum)).sum =
        (l.map g).sum :=
  sum_filter_key f g ((l.map f).dedup) (List.nodup_dedup _) l
    (fun x hx => List.mem_dedup.mpr (List.mem_map_of_mem f hx))

theorem count_over_groups {α : Type} (f : α → String) (l : List α) :
    (((l.map f).dedup).map
      (fun k => (l.filter (fun x => f x == k)).length)).sum = l.length := by
  have h := sum_over_groups f (fun _ => (1 : ℕ)) l
  rw [sum_map_one] at h
  rw [← h]
  apply congrArg List.sum
  apply List.map_congr_left
  intro k hk
  exact (sum_map_one _).symm

theorem groupFilter_eq (l : List Expense) (cat sub : String) :
    l.filter (fun x => x.category == cat && x.subcategory == sub) =
      (l.filter (fun x => x.category == cat)).filter
        (fun x => x.subcategory == sub) := by
  rw [List.filter_filter]
  apply List.filter_congr
  intro x hx
  exact Bool.and_comm (x.category == cat) (x.subcategory == sub)

theorem catTotalExact_eq (l : List Expense) (cat : String) :
    catTotalExact l cat =
      ((l.filter (fun x => x.category == cat)).map (fun x => x.amount)).sum := by
  unfold catTotalExact catSubs
  rw [← sum_over_groups (fun x : Expense => x.subcategory)
    (fun x : Expense => x.amount) (l.filter (fun x => x.category == cat))]
  apply congrArg List.sum
  apply List.map_congr_left
  intro sub hsub
  unfold groupTotal
  rw [groupFilter_eq]

theorem catCount_eq (l : List Expense) (cat : String) :
    catCount l cat = (l.filter (fun x => x.category == cat)).length := by
  unfold catCount catSubs
  rw [← count_over_groups (fun x : Expense => x.subcategory)
    (l.filter (fun x => x.category == cat))]
  apply congrArg List.sum
  apply List.map_congr_left
  intro sub hsub
  unfold groupCount
  rw [groupFilter_eq]

theorem counts_partition (l : List Expense) :
    (((l.map (fun x => x.category)).dedup).map (fun c => catCount l c)).sum =
      l.length := by
  rw [← count_over_groups (fun x : Expense => x.category) l]
  apply congrArg List.sum
  apply List.map_congr_left
  intro c hc
  exact catCount_eq l c

/-- Counterexample to C9: two food expenses of 0.004 in range, one under
subcategory a and one under b. Each reported subcategory total rounds to
0.00 while the reported category total rounds the exact sum 0.008 to 0.01,
so the reported subcategory totals sum to 0 ≠ 0.01 — the reported figures
do not sum exactly. -/
theorem breakdown_rounded_totals_cex :
    ∃ p ∈ (get_category_breakdown
        ⟨[⟨1, ⟨2026, 1, 5⟩, 1/250, "food", "a", ""⟩,
          ⟨2, ⟨2026, 1, 6⟩, 1/250, "food", "b", ""⟩], 3, [], [], 1⟩
        ⟨2026, 1, 1⟩ ⟨2026, 1, 31⟩).breakdown,
      (p.2.subcategories.map SubEntry.total).sum ≠ p.2.total := by
  have heq : (get_category_breakdown
      ⟨[⟨1, ⟨2026, 1, 5⟩, 1/250, "food", "a", ""⟩,
        ⟨2, ⟨2026, 1, 6⟩, 1/250, "food", "b", ""⟩], 3, [], [], 1⟩
      ⟨2026, 1, 1⟩ ⟨2026, 1, 31⟩).breakdown =
      [(("food"), ⟨1/100, 2, [⟨("a"), 0, 1, 0⟩, ⟨("b"), 0, 1, 0⟩]⟩)] := by
    have h1 : (["food", "food"] : List String).dedup = ["food"] := by decide
    have h2 : (["a", "b"] : List String).dedup = ["a", "b"] := by decide
    simp [get_category_breakdown, rangeExpenses, inRangeb, dateLeb,
      validate_date, daysInMonth, catEntry, catTotalExact, catSubs, groupTotal,
      groupCount, catCount, round2, roundHalfEven, h1, h2]
    have hf1 : Int.fract ((4:ℚ)/5) = 4/5 :=
      Int.fract_eq_self.mpr ⟨by norm_num, by norm_num⟩
    have hf2 : Int.fract ((2:ℚ)/5) = 2/5 :=
      Int.fract_eq_self.mpr ⟨by norm_num, by norm_num⟩
    norm_num [hf1, hf2]
  rw [heq]
  refine ⟨(("food"), ⟨1/100, 2, [⟨("a"), 0, 1, 0⟩, ⟨("b"), 0, 1, 0⟩]⟩),
    List.mem_singleton_self _, ?_⟩
  norm_num

/-- C9 (amended): within any date range, the EXACT (pre-rounding)
subcategory group totals of each reported category sum to that category's
exact total spend, the per-category counts sum to the total number of
expenses in range, and the reported figures are precisely the rounded
images of those exact values (so the reported subcategory totals need only
sum to the category total up to rounding). -/
theorem breakdown_sums_amended (db : DB) (s e : Date)
    (hs : validate_date s = true) (he : validate_date e = true) :
    (∀ p ∈ (get_category_breakdown db s e).breakdown,
      ((catSubs (rangeExpenses db s e) p.1).map
        (fun sub => groupTotal (rangeExpenses db s e) p.1 sub)).sum =
        (((rangeExpenses db s e).filter (fun x => x.category == p.1)).map
          (fun x => x.amount)).sum ∧
      p.2.total = round2 (catTotalExact (rangeExpenses db s e) p.1) ∧
      p.2.count = catCount (rangeExpenses db s e) p.1 ∧
      p.2.subcategories = (catSubs (rangeExpenses db s e) p.1).map (fun sub =>
        ⟨sub, round2 (groupTotal (rangeExpenses db s e) p.1 sub),
         groupCount (rangeExpenses db s e) p.1 sub,
         round2 (groupTotal (rangeExpenses db s e) p.1 sub /
           (groupCount (rangeExpenses db s e) p.1 sub : ℚ))⟩)) ∧
    ((((rangeExpenses db s e).map (fun x => x.category)).dedup).map
      (fun c => catCount (rangeExpenses db s e) c)).sum =
      (rangeExpenses db s e).length := by
  constructor
  · intro p hp
    simp only [get_category_breakdown, hs, he, Bool.and_self, if_true] at hp
    obtain ⟨c, hc, hpc⟩ := List.mem_map.mp hp
    cases hpc
    have h := catTotalExact_eq (rangeExpenses db s e) c
    unfold catTotalExact at h
    exact ⟨h, rfl, rfl, rfl⟩
  · exact counts_partition _

/-- Witness for C9 (amended) at the two-expense database of the
counterexample. -/
theorem breakdown_sums_amended_witness :
    (∀ p ∈ (get_category_breakdown
        ⟨[⟨1, ⟨2026, 1, 5⟩, 1/250, "food", "a", ""⟩,
          ⟨2, ⟨2026, 1, 6⟩, 1/250, "food", "b", ""⟩], 3, [], [], 1⟩
        ⟨2026, 1, 1⟩ ⟨2026, 1, 31⟩).breakdown,
      ((catSubs (rangeExpenses
          ⟨[⟨1, ⟨2026, 1, 5⟩, 1/250, "food", "a", ""⟩,
            ⟨2, ⟨2026, 1, 6⟩, 1/250, "food", "b", ""⟩], 3, [], [], 1⟩
          ⟨2026, 1, 1⟩ ⟨2026, 1, 31⟩) p.1).map
        (fun sub => groupTotal (rangeExpenses
          ⟨[⟨1, ⟨2026, 1, 5⟩, 1/250, "food", "a", ""⟩,
            ⟨2, ⟨2026, 1, 6⟩, 1/250, "food", "b", ""⟩], 3, [], [], 1⟩
          ⟨2026, 1, 1⟩ ⟨2026, 1, 31⟩) p.1 sub)).sum =
        (((rangeExpenses
          ⟨[⟨1, ⟨2026, 1, 5⟩, 1/250, "food", "a", ""⟩,
            ⟨2, ⟨2026, 1, 6⟩, 1/250, "food", "b", ""⟩], 3, [], [], 1⟩
          ⟨2026, 1, 1⟩ ⟨2026, 1, 31⟩).filter
            (fun x => x.category == p.1)).map (fun x => x.amount)).sum ∧
      p.2.total = round2 (catTotalExact (rangeExpenses
          ⟨[⟨1, ⟨2026, 1, 5⟩, 1/250, "food", "a", ""⟩,
            ⟨2, ⟨2026, 1, 6⟩, 1/250, "food", "b", ""⟩], 3, [], [], 1⟩
          ⟨2026, 1, 1⟩ ⟨2026, 1, 31⟩) p.1) ∧
      p.2.count = catCount (rangeExpenses
          ⟨[⟨1, ⟨2026, 1, 5⟩, 1/250, "food", "a", ""⟩,
            ⟨2, ⟨2026, 1, 6⟩, 1/250, "food", "b", ""⟩], 3, [], [], 1⟩
          ⟨2026, 1, 1⟩ ⟨2026, 1, 31⟩) p.1 ∧
      p.2.subcategories = (catSubs (rangeExpenses
          ⟨[⟨1, ⟨2026, 1, 5⟩, 1/250, "food", "a", ""⟩,
            ⟨2, ⟨2026, 1, 6⟩, 1/250, "food", "b", ""⟩], 3, [], [], 1⟩
          ⟨2026, 1, 1⟩ ⟨2026, 1, 31⟩) p.1).map (fun sub =>
        ⟨sub, round2 (groupTotal (rangeExpenses
            ⟨[⟨1, ⟨2026, 1, 5⟩, 1/250, "food", "a", ""⟩,
              ⟨2, ⟨2026, 1, 6⟩, 1/250, "food", "b", ""⟩], 3, [], [], 1⟩
            ⟨2026, 1, 1⟩ ⟨2026, 1, 31⟩) p.1 sub),
         groupCount (rangeExpenses
            ⟨[⟨1, ⟨2026, 1, 5⟩, 1/250, "food", "a", ""⟩,
              ⟨2, ⟨2026, 1, 6⟩, 1/250, "food", "b", ""⟩], 3, [], [], 1⟩
            ⟨2026, 1, 1⟩ ⟨2026, 1, 31⟩) p.1 sub,
         round2 (groupTotal (rangeExpenses
            ⟨[⟨1, ⟨2026, 1, 5⟩, 1/250, "food", "a", ""⟩,
              ⟨2, ⟨2026, 1, 6⟩, 1/250, "food", "b", ""⟩], 3, [], [], 1⟩
            ⟨2026, 1, 1⟩ ⟨2026, 1, 31⟩) p.1 sub /
           (groupCount (rangeExpenses
            ⟨[⟨1, ⟨2026, 1, 5⟩, 1/250, "food", "a", ""⟩,
              ⟨2, ⟨2026, 1, 6⟩, 1/250, "food", "b", ""⟩], 3, [], [], 1⟩
            ⟨2026, 1, 1⟩ ⟨2026, 1, 31⟩) p.1 sub : ℚ))⟩)) ∧
    ((((rangeExpenses
        ⟨[⟨1, ⟨2026, 1, 5⟩, 1/250, "food", "a", ""⟩,
          ⟨2, ⟨2026, 1, 6⟩, 1/250, "food", "b", ""⟩], 3, [], [], 1⟩
        ⟨2026, 1, 1⟩ ⟨2026, 1, 31⟩).map (fun x => x.category)).dedup).map
      (fun c => catCount (rangeExpenses
        ⟨[⟨1, ⟨2026, 1, 5⟩, 1/250, "food", "a", ""⟩,
          ⟨2, ⟨2026, 1, 6⟩, 1/250, "food", "b", ""⟩], 3, [], [], 1⟩
        ⟨2026, 1, 1⟩ ⟨2026, 1, 31⟩) c)).sum =
      (rangeExpenses
        ⟨[⟨1, ⟨2026, 1, 5⟩, 1/250, "food", "a", ""⟩,
          ⟨2, ⟨2026, 1, 6⟩, 1/250, "food", "b", ""⟩], 3, [], [], 1⟩
        ⟨2026, 1, 1⟩ ⟨2026, 1, 31⟩).length :=
  breakdown_sums_amended
    ⟨[⟨1, ⟨2026, 1, 5⟩, 1/250, "food", "a", ""⟩,
      ⟨2, ⟨2026, 1, 6⟩, 1/250, "food", "b", ""⟩], 3, [], [], 1⟩
    ⟨2026, 1, 1⟩ ⟨2026, 1, 31⟩ (by decide) (by decide)
